import Mathlib

/-!
Shallow embedding of the retrieval-and-ranking core of the hackRx
LLM query system (Python), covering word-based document chunking
(`utils/document_parser.py`), the vector index facade
(`core/embedding_service.py`), score fusion and reranking
(`core/reranking_service.py`), and the orchestrator fallback path
(`core/query_processor.py`, `core/llm_service.py`).

Python integers are modelled as `Nat`/`Int`, Python floats as `ℚ`,
Python strings as `String`, Python lists as `List`, and raised
exceptions as `Except PyError`.  External model collaborators
(sentence embedder, FAISS nearest-neighbour search, cross-encoder)
are passed in as function parameters, matching the contracts of
spec section 6.
-/

namespace HackRx

/-- Python exceptions that the embedded code can raise. -/
inductive PyError where
  | typeError
  | valueError
  | keyError
deriving DecidableEq, Repr

/-- Value of `settings.MAX_RETRIEVAL_RESULTS` in `config/settings.py`. -/
def MAX_RETRIEVAL_RESULTS : Nat := 20

/-- Value of `settings.TOP_K_RERANK` in `config/settings.py`. -/
def TOP_K_RERANK : Nat := 5

/-- Value of `settings.CHUNK_SIZE` in `config/settings.py`. -/
def CHUNK_SIZE : Nat := 512

/-- Value of `settings.CHUNK_OVERLAP` in `config/settings.py`. -/
def CHUNK_OVERLAP : Nat := 50

/-- Python truthiness idiom `x or d` on an optional integer argument:
both `None` and `0` are falsy and are replaced by the default `d`. -/
def pyOrNat (x : Option Nat) (d : Nat) : Nat :=
  match x with
  | none => d
  | some k => if k = 0 then d else k

/-- Python `x * n` where `x : Optional[int]` may be `None`:
multiplying `None` by an integer raises a `TypeError`. -/
def pyMulOpt (x : Option Nat) (n : Nat) : Except PyError Nat :=
  match x with
  | none => .error .typeError
  | some k => .ok (k * n)

/-- Accumulator loop for Python `str.split()`: split on runs of
whitespace, dropping empty pieces. `cur` holds the current word
reversed. -/
def splitWsAux : List Char → List Char → List (List Char)
  | [], cur => if cur = [] then [] else [cur.reverse]
  | c :: rest, cur =>
    if c.isWhitespace then
      if cur = [] then splitWsAux rest []
      else cur.reverse :: splitWsAux rest []
    else splitWsAux rest (c :: cur)

/-- Python `str.split()` with no separator argument. -/
def pySplitWs (s : String) : List String :=
  (splitWsAux s.toList []).map (fun cs => String.mk cs)

/-- Start indices generated by Python `range(0, stop, step)` for a
positive step: `0, step, 2*step, ...` strictly below `stop`. -/
def rangeStepPos (stop step : Nat) : List Nat :=
  (List.range ((stop + step - 1) / step)).map (fun j => j * step)

/-- Python `range(0, stop, step)` over an arbitrary integer step:
a zero step raises `ValueError`; a negative step gives an empty range
(the loop body never runs). -/
def pyRange (stop : Nat) (step : Int) : Except PyError (List Nat) :=
  if step = 0 then .error .valueError
  else if step < 0 then .ok []
  else .ok (rangeStepPos stop step.toNat)

/-- Chunk dictionary produced by `DocumentParser._simple_chunking`. -/
structure ChunkDraft where
  chunk_index : Nat
  text : String
  word_count : Nat
  char_count : Nat
deriving DecidableEq, Repr

/-- Embedding of `DocumentParser._simple_chunking` (word-based mode):
`words = text.split()`, then one chunk per start index in
`range(0, len(words), chunk_size - overlap)`, each chunk holding
`words[i:i+chunk_size]` joined by single spaces, with `chunk_index`
incremented once per loop iteration. -/
def simple_chunking (text : String) (chunk_size overlap : Nat) :
    Except PyError (List ChunkDraft) := do
  let words := pySplitWs text
  let starts ← pyRange words.length ((chunk_size : Int) - (overlap : Int))
  return starts.enum.map (fun p =>
    let chunk_words := (words.drop p.2).take chunk_size
    let chunk_str := String.intercalate " " chunk_words
    { chunk_index := p.1
      text := chunk_str
      word_count := chunk_words.length
      char_count := chunk_str.length })

/-- Embedding of `DocumentParser.chunk_text` on the code path where the
spaCy model is not loaded (`self.nlp is None`), so the word-based
strategy is used; `chunk_size or settings.CHUNK_SIZE` and
`overlap or settings.CHUNK_OVERLAP` supply the defaults. -/
def chunk_text (text : String) (chunk_size overlap : Option Nat) :
    Except PyError (List ChunkDraft) :=
  simple_chunking text (pyOrNat chunk_size CHUNK_SIZE) (pyOrNat overlap CHUNK_OVERLAP)


/-- Search-result dictionary returned by `EmbeddingService.search` (a copy
of the stored chunk record plus `similarity_score`) and consumed by
`RerankingService.rerank_results`.  `similarity_score` is optional because
the reranker reads it with `.get('similarity_score', 0.0)`;
`section_name` stands for the Python metadata key `section`. -/
structure SearchResult where
  chunk_id : String
  document_id : String
  chunk_index : Nat
  text : String
  deleted : Bool
  page_number : Option Nat
  section_name : Option String
  similarity_score : Option ℚ
deriving DecidableEq, Repr

/-- Scoring mode of `RerankingService`, fixed at initialization:
`cross_encoder` when the cross-encoder import succeeds, `bi_encoder`
otherwise (the embedding-similarity fallback). -/
inductive RerankMode where
  | cross_encoder
  | bi_encoder
deriving DecidableEq, Repr

/-- Search result after `rerank_results` has attached
`cross_encoder_score` and `combined_score` to the dictionary. -/
structure ScoredResult where
  base : SearchResult
  cross_encoder_score : ℚ
  combined_score : ℚ
deriving DecidableEq, Repr

/-- Scoring stage of `RerankingService.rerank_results`: every result
gains a `cross_encoder_score` from the external relevance model
(`scoreFn`, deterministic per spec section 6) and a `combined_score`
fused with the mode's fixed weights: `0.3 * similarity + 0.7 * rerank`
in cross-encoder mode, `0.5 * similarity + 0.5 * rerank` in the
bi-encoder fallback mode. -/
def add_scores (mode : RerankMode) (scoreFn : String → String → ℚ)
    (query : String) (results : List SearchResult) : List ScoredResult :=
  match mode with
  | .cross_encoder => results.map (fun r =>
      let ce := scoreFn query r.text
      { base := r, cross_encoder_score := ce,
        combined_score := 3/10 * r.similarity_score.getD 0 + 7/10 * ce })
  | .bi_encoder => results.map (fun r =>
      let ce := scoreFn query r.text
      { base := r, cross_encoder_score := ce,
        combined_score := 1/2 * r.similarity_score.getD 0 + 1/2 * ce })

/-- Boolean comparison embedding Python
`sorted(..., key=lambda x: x['combined_score'], reverse=True)`:
a stable sort that puts larger combined scores first and keeps the
input order of ties. -/
def combinedGe (a b : ScoredResult) : Bool :=
  decide (b.combined_score ≤ a.combined_score)

/-- Embedding of `RerankingService.rerank_results`: empty input returns
an empty list before `top_k` is even read; otherwise the scored results
are stably sorted by descending `combined_score` (Python `sorted` is a
stable sort, modelled by `List.mergeSort`) and truncated to
`top_k or settings.TOP_K_RERANK`. -/
def rerank_results (mode : RerankMode) (scoreFn : String → String → ℚ)
    (query : String) (search_results : List SearchResult)
    (top_k : Option Nat) : List ScoredResult :=
  if search_results.isEmpty then []
  else
    let k := pyOrNat top_k TOP_K_RERANK
    ((add_scores mode scoreFn query search_results).mergeSort combinedGe).take k

/-- Chunk record stored in `EmbeddingService.document_chunks` under the
key `len(self.document_chunks)` at insertion time.  Records are never
removed, so the keys are exactly the positions `0..n-1` of this list
and a record's position is its slot id.  `deleted` models
`.get('deleted', False)`: absent until `remove_document` sets it. -/
structure ChunkRecord where
  chunk_id : String
  document_id : String
  chunk_index : Nat
  text : String
  page_number : Option Nat
  section_name : Option String
  deleted : Bool
deriving DecidableEq, Repr

/-- Chunk dictionary handed to `EmbeddingService.add_documents`
(the output shape of the chunker plus optional metadata). -/
structure ChunkIn where
  chunk_index : Nat
  text : String
  page_number : Option Nat
  section_name : Option String
deriving DecidableEq, Repr

/-- State of the `EmbeddingService` metadata store
(`self.document_chunks`). -/
structure EmbState where
  chunks : List ChunkRecord
deriving DecidableEq, Repr

/-- Record built for one chunk inside `add_documents`:
`chunk_id = f"{document_id}_{chunk['chunk_index']}"`. -/
def mkRecord (docId : String) (c : ChunkIn) : ChunkRecord :=
  { chunk_id := docId ++ "_" ++ toString c.chunk_index,
    document_id := docId, chunk_index := c.chunk_index, text := c.text,
    page_number := c.page_number, section_name := c.section_name,
    deleted := false }

/-- Loop body of `EmbeddingService.add_documents`: each chunk is stored
under the key `len(self.document_chunks)` current at its own insertion.
The returned list records those keys (the slot ids); the Python
function's return value is the parallel list of `chunk_id` strings. -/
def add_documents_loop (docId : String) :
    List ChunkRecord → List ChunkIn → List ChunkRecord × List Nat
  | entries, [] => (entries, [])
  | entries, c :: rest =>
    let slot := entries.length
    let next := add_documents_loop docId (entries ++ [mkRecord docId c]) rest
    (next.1, slot :: next.2)

/-- Embedding of `EmbeddingService.add_documents` (metadata part;
the FAISS vector append is the external embedder plus `index.add`). -/
def add_documents (s : EmbState) (docId : String) (cs : List ChunkIn) :
    EmbState × List Nat :=
  let r := add_documents_loop docId s.chunks cs
  (⟨r.1⟩, r.2)

/-- Embedding of `EmbeddingService.remove_document`: flips
`deleted = True` on every stored record of the document; nothing is
removed from the metadata dict or from the FAISS index. -/
def remove_document (s : EmbState) (docId : String) : EmbState :=
  ⟨s.chunks.map (fun r =>
    if r.document_id = docId then { r with deleted := true } else r)⟩

/-- Result dictionary built by `EmbeddingService.search` for one FAISS
hit: `chunk_info.copy()` plus `similarity_score`. -/
def resultOfRecord (r : ChunkRecord) (score : ℚ) : SearchResult :=
  { chunk_id := r.chunk_id, document_id := r.document_id,
    chunk_index := r.chunk_index, text := r.text, deleted := r.deleted,
    page_number := r.page_number, section_name := r.section_name,
    similarity_score := some score }

/-- Number of results `EmbeddingService.search` requests from the FAISS
index: `top_k or settings.MAX_RETRIEVAL_RESULTS`. -/
def faiss_request (top_k : Option Nat) : Nat :=
  pyOrNat top_k MAX_RETRIEVAL_RESULTS

/-- Embedding of `EmbeddingService.search`.  `idxSearch` models query
encoding plus `self.index.search` and returns the FAISS
`(score, idx)` pairs for a requested result count; FAISS pads with
`idx = -1` when the index holds fewer vectors, and the loop keeps a hit
only when `0 <= idx < len(self.document_chunks)`.  The loop applies no
other filter: in particular it never consults the `deleted` flag. -/
def search (s : EmbState) (idxSearch : String → Nat → List (ℚ × Int))
    (query : String) (top_k : Option Nat) : List SearchResult :=
  (idxSearch query (faiss_request top_k)).filterMap (fun hit =>
    if h : 0 ≤ hit.2 ∧ hit.2.toNat < s.chunks.length then
      some (resultOfRecord (s.chunks.get ⟨hit.2.toNat, h.2⟩) hit.1)
    else none)

/-- Embedding of `EmbeddingService.search_by_document`: over-fetch
`top_k * 2` results (a `TypeError` when `top_k` is `None`), filter to
the target document, truncate to `top_k or settings.MAX_RETRIEVAL_RESULTS`. -/
def search_by_document (s : EmbState)
    (idxSearch : String → Nat → List (ℚ × Int)) (query docId : String)
    (top_k : Option Nat) : Except PyError (List SearchResult) := do
  let k2 ← pyMulOpt top_k 2
  let all_results := search s idxSearch query (some k2)
  let document_results := all_results.filter (fun r => r.document_id == docId)
  return document_results.take (pyOrNat top_k MAX_RETRIEVAL_RESULTS)

/-- Mutating operations on the metadata store, for stating invariants
over arbitrary operation sequences. -/
inductive EmbOp where
  | add (docId : String) (chunks : List ChunkIn)
  | removeDoc (docId : String)
deriving DecidableEq, Repr

/-- Runs one operation, returning the new state and the slot ids the
operation assigned. -/
def run_op (s : EmbState) : EmbOp → EmbState × List Nat
  | .add docId cs => add_documents s docId cs
  | .removeDoc docId => (remove_document s docId, [])

/-- Runs a sequence of operations, concatenating the slot ids in
assignment order. -/
def run_ops (s : EmbState) : List EmbOp → EmbState × List Nat
  | [] => (s, [])
  | op :: rest =>
    let r := run_op s op
    let r2 := run_ops r.1 rest
    (r2.1, r.2 ++ r2.2)

/-- State of a file on disk as seen by `_load_index`: absent, present
but failing deserialization, or present with a value. -/
inductive StoredFile (α : Type) where
  | missing
  | corrupt
  | good (val : α)
deriving DecidableEq, Repr

/-- Contents of a serialized FAISS index (the stored vectors). -/
structure FaissIndex where
  vectors : List (List ℚ)
deriving DecidableEq, Repr

/-- Empty index created by `faiss.IndexFlatIP(settings.EMBEDDING_DIMENSION)`. -/
def fresh_index : FaissIndex := ⟨[]⟩

/-- Embedding of `EmbeddingService._load_index`, which runs right after
`initialize` created a fresh empty index while `document_chunks` is the
empty dict from `__init__`.  When both files exist and deserialize, the
stored state is adopted; when either file is absent the `exists` check
fails and the fresh state is kept; when either read raises, the
`except` handler reinstalls a fresh empty index and empty metadata. -/
def load_index (faissFile : StoredFile FaissIndex)
    (metaFile : StoredFile (List ChunkRecord)) :
    FaissIndex × List ChunkRecord :=
  match faissFile, metaFile with
  | .good idx, .good meta => (idx, meta)
  | .missing, _ => (fresh_index, [])
  | _, .missing => (fresh_index, [])
  | _, _ => (fresh_index, [])

/-- Python `s.lower()`. -/
def pyLower (s : String) : String := String.mk (s.toList.map Char.toLower)

/-- Python substring test `needle in hay` on character lists. -/
def isSubL (needle : List Char) : List Char → Bool
  | [] => needle.isEmpty
  | c :: rest => needle.isPrefixOf (c :: rest) || isSubL needle rest

/-- Python substring test `needle in hay` on strings. -/
def pyIn (needle hay : String) : Bool := isSubL needle.toList hay.toList

/-- Python slice `s[:n]`. -/
def pyTakeStr (s : String) (n : Nat) : String := String.mk (s.toList.take n)

/-- Python `d['key']` on an optional field: raises `KeyError` when the
key is absent. -/
def getKey {α : Type} (x : Option α) : Except PyError α :=
  match x with
  | none => .error .keyError
  | some v => .ok v

/-- Dictionary returned by `LLMService._rule_based_answer_generation`
(and by `generate_answer` whenever `self.pipeline` is `None`).  Every
field is optional because the orchestrator reads some keys with `[]`
(raising `KeyError` when absent) and some with `.get`. -/
structure GenAnswer where
  answer : Option String
  decision : Option String
  confidence : Option ℚ
  reasoning : Option String
  supporting_evidence : Option (List String)
  conflicting_evidence : Option (List String)
  key_factors : Option (List String)
  limitations : Option (List String)
  total_tokens : Option Nat
deriving DecidableEq, Repr

/-- Embedding of `LLMService._rule_based_answer_generation`, the
deterministic fallback answer generator.  With no relevant chunks it
returns the fixed insufficient-information dictionary with confidence
`0.1`; otherwise it keyword-matches against the first (best) chunk and
caps the confidence at `0.7`.  Reranked chunks always carry
`combined_score`, so `best_chunk.get('combined_score', 0.5)` is the
field itself. -/
def rule_based_answer_generation (query : String)
    (relevant_chunks : List ScoredResult) : GenAnswer :=
  match relevant_chunks with
  | [] =>
    { answer := some "I couldn\x27t find relevant information to answer your question.",
      decision := some "Unclear",
      confidence := some (1/10),
      reasoning := some "No relevant document excerpts found for the query.",
      supporting_evidence := some [],
      conflicting_evidence := some [],
      key_factors := some ["Insufficient information"],
      limitations := some ["No relevant documents found"],
      total_tokens := some 0 }
  | best :: _ =>
    let query_lower := pyLower query
    let chunk_text_lower := pyLower best.base.text
    let decision :=
      if pyIn "cover" query_lower then
        if ["covered", "includes", "benefits"].any (fun w => pyIn w chunk_text_lower) then "Yes"
        else if ["excluded", "not covered", "exceptions"].any (fun w => pyIn w chunk_text_lower) then "No"
        else "Unclear"
      else "Unclear"
    { answer := some ("Based on the most relevant document section, "
        ++ pyTakeStr best.base.text 200 ++ "..."),
      decision := some decision,
      confidence := some (min best.combined_score (7/10)),
      reasoning := some "Answer generated based on keyword matching and document similarity.",
      supporting_evidence := some [pyTakeStr best.base.text 100 ++ "..."],
      conflicting_evidence := some [],
      key_factors := some ["Document similarity score", "Keyword matching"],
      limitations := some ["Rule-based analysis", "Limited context understanding"],
      total_tokens := some 0 }

/-- Structured query produced by `LLMService._rule_based_extraction`
(and by `extract_structured_query` whenever `self.pipeline` is `None`). -/
structure StructuredQuery where
  intent : String
  subject : String
  keywords : List String
  question_type : String
  entities : List String
  context_clues : List String
deriving DecidableEq, Repr

/-- Embedding of `LLMService._rule_based_extraction`, the deterministic
fallback for structured-query extraction. -/
def rule_based_extraction (query : String) (domain : Option String) :
    StructuredQuery :=
  let query_lower := pyLower query
  let intent :=
    if ["cover", "covered", "coverage"].any (fun w => pyIn w query_lower) then "coverage_check"
    else if ["exclude", "excluded", "exclusion"].any (fun w => pyIn w query_lower) then "exclusion_check"
    else if ["condition", "requirement", "prerequisite"].any (fun w => pyIn w query_lower) then "condition_check"
    else "general_inquiry"
  let question_type :=
    if ["does", "is", "can", "will", "would"].any
        (fun p => p.toList.isPrefixOf query_lower.toList) then "yes_no"
    else if ["if", "when", "under what"].any (fun w => pyIn w query_lower) then "conditional"
    else "explanatory"
  let keywords := (pySplitWs query).filter (fun w =>
    decide (3 < w.toList.length) &&
    !(["does", "this", "what", "are", "the", "conditions", "coverage",
       "policy"].contains (pyLower w)))
  let subject :=
    if 50 < query.toList.length then pyTakeStr query 50 ++ "..." else query
  { intent := intent, subject := subject, keywords := keywords.take 10,
    question_type := question_type, entities := [],
    context_clues := match domain with | some d => [d] | none => [] }

/-- Modelled from the spec: `ClauseMatch` of `models/schemas.py`, a file
absent from the sources; the field set is taken from the constructor
call in `QueryProcessor.process_query`, with `page_number` and
`section_name` optional (`.get` on chunk metadata). -/
structure ClauseMatch where
  clause_id : String
  clause_text : String
  relevance_score : ℚ
  page_number : Option Nat
  section_name : Option String
deriving DecidableEq, Repr

/-- Modelled from the spec: `DecisionRationale` of `models/schemas.py`
(absent from the sources); fields from the constructor call in
`QueryProcessor.process_query` and the generation contract of spec
section 6. -/
structure DecisionRationale where
  reasoning : String
  supporting_clauses : List String
  conflicting_clauses : List String
  confidence_score : ℚ
  key_factors : List String
deriving DecidableEq, Repr

/-- Modelled from the spec: `QueryResponse` of `models/schemas.py`
(absent from the sources); fields from the constructor call in
`QueryProcessor.process_query`, with `decision` and `token_usage`
optional as in the spec section 6 contract
`{answer, decision?, confidence, reasoning, supporting_evidence[], key_factors[]}`. -/
structure QueryResponse where
  query_id : String
  query : String
  answer : String
  decision : Option String
  matched_clauses : List ClauseMatch
  rationale : DecisionRationale
  processing_time_ms : ℚ
  token_usage : Option Nat
deriving DecidableEq, Repr

/-- Response-assembly tail of `QueryProcessor.process_query` (the code
from `response_data = llm_service.generate_answer(...)` to the
`QueryResponse` constructor call), with every LLM collaborator
unavailable so `generate_answer` is `_rule_based_answer_generation`.
Keys read with `[]` go through `getKey` and raise `KeyError` when the
generator left them unset. -/
def respond (query_id : String) (elapsed_ms : ℚ) (query : String)
    (reranked_results : List ScoredResult) : Except PyError QueryResponse := do
  let response_data := rule_based_answer_generation query reranked_results
  let matched_clauses := reranked_results.map (fun chunk =>
    ({ clause_id := chunk.base.chunk_id, clause_text := chunk.base.text,
       relevance_score := chunk.combined_score,
       page_number := chunk.base.page_number,
       section_name := chunk.base.section_name } : ClauseMatch))
  let reasoning ← getKey response_data.reasoning
  let supporting ← getKey response_data.supporting_evidence
  let confidence ← getKey response_data.confidence
  let key_factors ← getKey response_data.key_factors
  let answer ← getKey response_data.answer
  return { query_id := query_id, query := query, answer := answer,
           decision := response_data.decision,
           matched_clauses := matched_clauses,
           rationale := { reasoning := reasoning,
                          supporting_clauses := supporting,
                          conflicting_clauses := response_data.conflicting_evidence.getD [],
                          confidence_score := confidence,
                          key_factors := key_factors },
           processing_time_ms := elapsed_ms,
           token_usage := response_data.total_tokens }

/-- Embedding of `QueryProcessor.process_query` with every LLM
collaborator unavailable (`llm_service.pipeline is None`), so both
`extract_structured_query` and `generate_answer` take their
deterministic rule-based fallbacks.  `query_id` stands for the
generated UUID and `elapsed_ms` for the measured wall-clock time, both
environment inputs.  The database write is the external persistence
step and is not modelled. -/
def process_query (s : EmbState)
    (idxSearch : String → Nat → List (ℚ × Int)) (mode : RerankMode)
    (scoreFn : String → String → ℚ) (query_id : String) (elapsed_ms : ℚ)
    (query : String) (document_id : Option String)
    (domain : Option String) (max_results : Option Nat) :
    Except PyError QueryResponse := do
  let _structured_query := rule_based_extraction query domain
  let document_results ←
    match document_id with
    | some d => search_by_document s idxSearch query d max_results
    | none => pure (search s idxSearch query max_results)
  respond query_id elapsed_ms query
    (rerank_results mode scoreFn query document_results max_results)

/-- Sample stored chunk record used by the restore witness. -/
def sampleRecord : ChunkRecord :=
  { chunk_id := "d0_0", document_id := "d0", chunk_index := 0, text := "t",
    page_number := none, section_name := none, deleted := false }

/-- Sample search result used by concrete witnesses. -/
def sampleResult : SearchResult :=
  { chunk_id := "c0", document_id := "d0", chunk_index := 0, text := "t",
    deleted := false, page_number := none, section_name := none,
    similarity_score := some 1 }

/-- Scored form of `sampleResult` under the zero scorer in cross-encoder
mode. -/
def sampleScored : ScoredResult :=
  { base := sampleResult, cross_encoder_score := 0,
    combined_score := 3/10 * sampleResult.similarity_score.getD 0 + 7/10 * 0 }

/-- Search result carrying the similarity score 0.8 of the spec's
reranking example. -/
def exampleResult08 : SearchResult :=
  { chunk_id := "c1", document_id := "d1", chunk_index := 0, text := "doc text",
    deleted := false, page_number := none, section_name := none,
    similarity_score := some (4/5) }

/-- One-document index state: `add_documents` on a fresh service with a
single chunk of `doc1`. -/
def demo_state : EmbState :=
  (add_documents ⟨[]⟩ "doc1" [⟨0, "hello world", none, none⟩]).1

/-- `demo_state` after `remove_document("doc1")`. -/
def demo_deleted : EmbState := remove_document demo_state "doc1"

/-- FAISS behaviour on a one-vector index: every query returns slot 0.
The vector of the deleted chunk is still stored because
`remove_document` never touches the FAISS index. -/
def demo_hits : String → Nat → List (ℚ × Int) := fun _ _ => [(1, 0)]

/-- Two-document index state on top of `demo_state`. -/
def demo_state2 : EmbState :=
  (add_documents demo_state "doc2" [⟨0, "goodbye", none, none⟩]).1

/-- FAISS behaviour on the two-vector index `demo_state2`. -/
def demo_hits2 : String → Nat → List (ℚ × Int) := fun _ _ => [(1, 0), (1, 1)]

/-- Helper: number of loop iterations of the chunking loop. -/
theorem rangeStepPos_length (n s : Nat) :
    (rangeStepPos n s).length = (n + s - 1) / s := by
  simp [rangeStepPos]

/-- Helper: closed form of `simple_chunking` for a valid configuration. -/
theorem simple_chunking_ok (text : String) (c o : Nat) (h : o < c) :
    simple_chunking text c o =
      .ok ((rangeStepPos (pySplitWs text).length (c - o)).enum.map (fun p =>
        let chunk_words := ((pySplitWs text).drop p.2).take c
        let chunk_str := String.intercalate " " chunk_words
        ⟨p.1, chunk_str, chunk_words.length, chunk_str.length⟩)) := by
  have h0 : ¬ ((c : Int) - (o : Int) = 0) := by omega
  have h1 : ¬ ((c : Int) - (o : Int) < 0) := by omega
  have h2 : ((c : Int) - (o : Int)).toNat = c - o := by omega
  simp [simple_chunking, pyRange, h0, h1, h2]

/-- C3: in word mode, for every text and every valid `(chunk_size, overlap)`
with `overlap < chunk_size`, chunking emits the sliding windows
`words[j*stride : j*stride + chunk_size]` of stride
`chunk_size - overlap`, including the non-empty last partial window,
with contiguous `chunk_index` values `0..N-1`; chunking
`"a b c d e f g h"` with `chunk_size=4, overlap=1` yields exactly
`[0:"a b c d", 1:"d e f g", 2:"g h"]`; empty text yields an empty
chunk sequence. -/
theorem simple_chunking_spec :
    (∀ (text : String) (c o : Nat), o < c →
      ∃ cs, simple_chunking text c o = .ok cs ∧
        cs.length = ((pySplitWs text).length + (c - o) - 1) / (c - o) ∧
        ∀ j (hj : j < cs.length),
          (cs.get ⟨j, hj⟩).chunk_index = j ∧
          (cs.get ⟨j, hj⟩).text =
            String.intercalate " " (((pySplitWs text).drop (j * (c - o))).take c) ∧
          0 < (cs.get ⟨j, hj⟩).word_count) ∧
    simple_chunking "a b c d e f g h" 4 1 =
      .ok [⟨0, "a b c d", 4, 7⟩, ⟨1, "d e f g", 4, 7⟩, ⟨2, "g h", 2, 3⟩] ∧
    (∀ (c o : Nat), o < c → simple_chunking "" c o = .ok []) := by
  refine ⟨?_, rfl, ?_⟩
  swap
  · intro c o h
    rw [simple_chunking_ok "" c o h]
    have h1 : pySplitWs "" = [] := rfl
    have h2 : (c - o - 1) / (c - o) = 0 := Nat.div_eq_of_lt (by omega)
    simp [h1, rangeStepPos, h2]
  · intro text c o h
    refine ⟨_, simple_chunking_ok text c o h, ?_, ?_⟩
    · simp [rangeStepPos]
    · intro j hj
      have hs : 0 < c - o := by omega
      set words := pySplitWs text with hw
      set s := c - o with hsdef
      have hlen : j < (words.length + s - 1) / s := by
        simpa [rangeStepPos] using hj
      have hmul : (j + 1) * s ≤ words.length + s - 1 :=
        (Nat.le_div_iff_mul_le hs).mp hlen
      have hexp : (j + 1) * s = j * s + s := by ring
      have hstart : j * s < words.length := by omega
      have hget :
          ((rangeStepPos words.length s).enum.map (fun p =>
            let chunk_words := (words.drop p.2).take c
            let chunk_str := String.intercalate " " chunk_words
            (⟨p.1, chunk_str, chunk_words.length, chunk_str.length⟩ : ChunkDraft))).get ⟨j, hj⟩ =
          (let chunk_words := (words.drop (j * s)).take c
           let chunk_str := String.intercalate " " chunk_words
           (⟨j, chunk_str, chunk_words.length, chunk_str.length⟩ : ChunkDraft)) := by
        simp [List.get_eq_getElem, List.getElem_map, List.getElem_enum, rangeStepPos,
          List.getElem_range]
      rw [hget]
      refine ⟨rfl, rfl, ?_⟩
      simp only [List.length_take, List.length_drop]
      omega

/-- C5: evaluation of the code at the failing configuration.  With
`overlap > chunk_size` (here `text="a b c"`, `chunk_size=2`,
`overlap=3`) the chunker silently returns an empty chunk list - the
text is dropped with no error reported - contradicting the claim that
every `overlap >= chunk_size` configuration is rejected as a
configuration error.  Only the boundary `overlap == chunk_size` raises
(a `ValueError` escaping from `range()` with zero step). -/
theorem chunking_overlap_not_rejected :
    simple_chunking "a b c" 2 3 = .ok [] ∧
    simple_chunking "a b c" 2 2 = .error .valueError ∧
    chunk_text "a b c" (some 2) (some 3) = .ok [] := ⟨rfl, rfl, rfl⟩

/-- Witness for C3 at a concrete valid configuration. -/
theorem simple_chunking_spec_witness :
    (1 < 3) ∧ simple_chunking "" 3 1 = .ok [] :=
  ⟨by decide, simple_chunking_spec.2.2 3 1 (by decide)⟩

/-- C4: for every candidate, the reranker computes
`combined_score = 0.3 * similarity_score + 0.7 * rerank_score` in
cross-encoder (pairwise) mode and
`combined_score = 0.5 * similarity_score + 0.5 * rerank_score` in the
embedding-similarity fallback mode; in pairwise mode
`similarity_score=0.8` and `rerank_score=0.6` give
`combined_score = 0.66 = 33/50`. -/
theorem combined_score_formula (f : String → String → ℚ) (q : String)
    (rs : List SearchResult) :
    (∀ sr ∈ add_scores .cross_encoder f q rs,
      sr.cross_encoder_score = f q sr.base.text ∧
      sr.combined_score =
        3/10 * sr.base.similarity_score.getD 0 + 7/10 * sr.cross_encoder_score) ∧
    (∀ sr ∈ add_scores .bi_encoder f q rs,
      sr.cross_encoder_score = f q sr.base.text ∧
      sr.combined_score =
        1/2 * sr.base.similarity_score.getD 0 + 1/2 * sr.cross_encoder_score) ∧
    (add_scores .cross_encoder (fun _ _ => 3/5) "policy query" [exampleResult08]).map
        (fun sr => sr.combined_score) = [33/50] := by
  refine ⟨?_, ?_, ?_⟩
  · intro sr hsr
    simp only [add_scores, List.mem_map] at hsr
    obtain ⟨r, _, rfl⟩ := hsr
    exact ⟨rfl, rfl⟩
  · intro sr hsr
    simp only [add_scores, List.mem_map] at hsr
    obtain ⟨r, _, rfl⟩ := hsr
    exact ⟨rfl, rfl⟩
  · simp [add_scores, exampleResult08]
    norm_num

/-- Witness for C4 on a concrete scored candidate. -/
theorem combined_score_formula_witness :
    sampleScored ∈ add_scores .cross_encoder (fun _ _ => (0 : ℚ)) "q" [sampleResult] ∧
    sampleScored.cross_encoder_score = (0 : ℚ) ∧
    sampleScored.combined_score =
      3/10 * sampleScored.base.similarity_score.getD 0
        + 7/10 * sampleScored.cross_encoder_score := by
  have hmem : sampleScored ∈ add_scores .cross_encoder (fun _ _ => (0 : ℚ)) "q" [sampleResult] :=
    List.mem_singleton.mpr rfl
  have h := (combined_score_formula (fun _ _ => (0 : ℚ)) "q" [sampleResult]).1 sampleScored hmem
  exact ⟨hmem, h.1, h.2⟩

/-- C6 (amended): for every query, candidate set and positive `top_k`,
`rerank_results` stably sorts the scored candidates by descending
`combined_score` (the sorted list is a permutation, is pairwise
descending, and every tied pair keeps its input order) and truncates to
`top_k`; re-running on the same inputs returns the identical list, and
an empty candidate input returns an empty list.  (For `top_k = 0` or
`None` the Python `or` idiom substitutes `settings.TOP_K_RERANK`,
see the counterexample.) -/
theorem rerank_ordering (mode : RerankMode) (f : String → String → ℚ)
    (q : String) (rs : List SearchResult) (k : Nat) (hk : 0 < k) :
    (rs ≠ [] → rerank_results mode f q rs (some k) =
      ((add_scores mode f q rs).mergeSort combinedGe).take k) ∧
    List.Pairwise (fun a b => b.combined_score ≤ a.combined_score)
      ((add_scores mode f q rs).mergeSort combinedGe) ∧
    List.Perm ((add_scores mode f q rs).mergeSort combinedGe) (add_scores mode f q rs) ∧
    (∀ a b : ScoredResult, List.Sublist [a, b] (add_scores mode f q rs) →
      a.combined_score = b.combined_score →
      List.Sublist [a, b] ((add_scores mode f q rs).mergeSort combinedGe)) ∧
    rerank_results mode f q rs (some k) = rerank_results mode f q rs (some k) ∧
    rerank_results mode f q ([] : List SearchResult) (some k) = [] := by
  have htrans : ∀ a b c : ScoredResult,
      combinedGe a b → combinedGe b c → combinedGe a c := by
    intro a b c hab hbc
    simp only [combinedGe, decide_eq_true_eq] at *
    exact le_trans hbc hab
  have htotal : ∀ a b : ScoredResult, combinedGe a b || combinedGe b a := by
    intro a b
    simp only [combinedGe, Bool.or_eq_true, decide_eq_true_eq]
    exact le_total _ _
  refine ⟨?_, ?_, ?_, ?_, rfl, rfl⟩
  · intro hne
    have hemp : rs.isEmpty = false := by
      cases rs with
      | nil => exact absurd rfl hne
      | cons a t => rfl
    simp [rerank_results, hemp, pyOrNat, Nat.pos_iff_ne_zero.mp hk]
  · have h := List.sorted_mergeSort htrans htotal (add_scores mode f q rs)
    exact h.imp (fun hab => by simpa [combinedGe, decide_eq_true_eq] using hab)
  · exact List.mergeSort_perm _ _
  · intro a b hsub heq
    exact List.pair_sublist_mergeSort htrans htotal
      (by simp [combinedGe, heq]) hsub

/-- Witness for C6 at a concrete candidate list and `top_k = 1`. -/
theorem rerank_ordering_witness :
    (0 < 1) ∧
    rerank_results .cross_encoder (fun _ _ => (0 : ℚ)) "q" [sampleResult] (some 1) =
      ((add_scores .cross_encoder (fun _ _ => (0 : ℚ)) "q" [sampleResult]).mergeSort combinedGe).take 1 ∧
    rerank_results .cross_encoder (fun _ _ => (0 : ℚ)) "q" ([] : List SearchResult) (some 1) = [] := by
  have h := rerank_ordering .cross_encoder (fun _ _ => (0 : ℚ)) "q" [sampleResult] 1 (by decide)
  exact ⟨by decide, h.1 (by simp), h.2.2.2.2.2⟩

/-- C1: evaluation of the code at the failing input.  After
`add_documents` of one `doc1` chunk and `remove_document("doc1")` the
only stored record is flagged `deleted = True`, yet `search` - whose
result loop checks only `0 <= idx < len(document_chunks)` and never the
`deleted` flag, while the vector stays in the FAISS index - returns
exactly that record for any query, contradicting the claim that search
never returns a slot of a deleted document. -/
theorem search_returns_deleted_chunk :
    demo_deleted.chunks.map (fun r => (r.document_id, r.deleted)) = [("doc1", true)] ∧
    (search demo_deleted demo_hits "any query" (some 3)).map
      (fun r => (r.document_id, r.deleted)) = [("doc1", true)] := ⟨rfl, rfl⟩

/-- C10: calling `search_by_document` with `top_k = None` raises a
`TypeError` for every state, query and document id, because
`top_k * 2` is computed before the `top_k or ...` default is applied. -/
theorem search_by_document_none_top_k (s : EmbState)
    (f : String → Nat → List (ℚ × Int)) (q d : String) :
    search_by_document s f q d none = .error .typeError := rfl

/-- C7: for every query, document filter and positive `top_k`,
document-scoped search over-fetches exactly `2 * top_k` results from
the index, filters them to the target document and truncates to
`top_k`; every returned result belongs to the target document, at most
`top_k` are returned, the result is a prefix of the filtered candidate
list, and when at most `top_k` candidates survive the filter all of
them are returned - never padded with entries of other documents. -/
theorem search_by_document_overfetch (s : EmbState)
    (f : String → Nat → List (ℚ × Int)) (q d : String) (k : Nat) (hk : 0 < k) :
    search_by_document s f q d (some k) =
      .ok (((search s f q (some (k * 2))).filter
        (fun r => r.document_id == d)).take k) ∧
    faiss_request (some (k * 2)) = 2 * k ∧
    (∀ r ∈ ((search s f q (some (k * 2))).filter
        (fun r => r.document_id == d)).take k, r.document_id = d) ∧
    (((search s f q (some (k * 2))).filter (fun r => r.document_id == d)).take k).length ≤ k ∧
    List.IsPrefix
      (((search s f q (some (k * 2))).filter (fun r => r.document_id == d)).take k)
      ((search s f q (some (k * 2))).filter (fun r => r.document_id == d)) ∧
    (((search s f q (some (k * 2))).filter (fun r => r.document_id == d)).length ≤ k →
      ((search s f q (some (k * 2))).filter (fun r => r.document_id == d)).take k =
        (search s f q (some (k * 2))).filter (fun r => r.document_id == d)) := by
  have hk0 : k ≠ 0 := Nat.pos_iff_ne_zero.mp hk
  refine ⟨?_, ?_, ?_, ?_, ?_, ?_⟩
  · simp [search_by_document, pyMulOpt, pyOrNat, hk0]
  · simp [faiss_request, pyOrNat, hk0, Nat.mul_comm]
  · intro r hr
    have hmem := List.mem_of_mem_take hr
    exact eq_of_beq (List.mem_filter.mp hmem).2
  · exact List.length_take_le _ _
  · exact List.take_prefix _ _
  · intro hle
    exact List.take_of_length_le hle

/-- Witness for C7 on a two-document index with `top_k = 1`. -/
theorem search_by_document_overfetch_witness :
    (0 < 1) ∧
    search_by_document demo_state2 demo_hits2 "q" "doc1" (some 1) =
      .ok (((search demo_state2 demo_hits2 "q" (some (1 * 2))).filter
        (fun r => r.document_id == "doc1")).take 1) ∧
    faiss_request (some (1 * 2)) = 2 * 1 := by
  have h := search_by_document_overfetch demo_state2 demo_hits2 "q" "doc1" 1 (by decide)
  exact ⟨by decide, h.1, h.2.1⟩

/-- Helper: `add_documents` appends its records in input order and
assigns the consecutive slot ids starting at the current store size. -/
theorem add_documents_loop_spec (docId : String) (cs : List ChunkIn) :
    ∀ entries : List ChunkRecord,
      (add_documents_loop docId entries cs).1 = entries ++ cs.map (mkRecord docId) ∧
      (add_documents_loop docId entries cs).2 =
        (List.range cs.length).map (fun j => entries.length + j) := by
  induction cs with
  | nil => intro entries; simp [add_documents_loop]
  | cons c rest ih =>
    intro entries
    have h := ih (entries ++ [mkRecord docId c])
    refine ⟨?_, ?_⟩
    · simp [add_documents_loop, h.1]
    · simp only [add_documents_loop, h.2, List.range_succ_eq_map, List.map_cons,
        List.map_map, List.length_append, List.length_cons, List.length_nil]
      refine List.cons_eq_cons.mpr ⟨by omega, ?_⟩
      apply List.map_congr_left
      intro a _
      simp [Function.comp]
      omega

/-- Helper: `remove_document` never shrinks the slot table. -/
theorem remove_document_length (s : EmbState) (d : String) :
    (remove_document s d).chunks.length = s.chunks.length := by
  simp [remove_document]

/-- Helper: a single operation assigns strictly increasing fresh slot
ids, all at least the current store size. -/
theorem run_op_spec (s : EmbState) (op : EmbOp) :
    s.chunks.length ≤ (run_op s op).1.chunks.length ∧
    (∀ slot ∈ (run_op s op).2,
      s.chunks.length ≤ slot ∧ slot < (run_op s op).1.chunks.length) ∧
    (run_op s op).2.Pairwise (· < ·) := by
  cases op with
  | add d cs =>
    have h := add_documents_loop_spec d cs s.chunks
    refine ⟨?_, ?_, ?_⟩
    · simp [run_op, add_documents, h.1]
    · intro slot hslot
      simp only [run_op, add_documents, h.2, List.mem_map, List.mem_range] at hslot
      obtain ⟨j, hj, rfl⟩ := hslot
      simp [run_op, add_documents, h.1]
      omega
    · simp only [run_op, add_documents, h.2]
      refine List.Pairwise.map _ ?_ (List.pairwise_lt_range _)
      intro a b hab
      omega
  | removeDoc d =>
    simp [run_op, remove_document_length]

/-- Helper: over any operation sequence the store only grows and the
assigned slot ids are strictly increasing, each within the store bounds
at its assignment. -/
theorem run_ops_spec (ops : List EmbOp) :
    ∀ s : EmbState,
      s.chunks.length ≤ (run_ops s ops).1.chunks.length ∧
      (∀ slot ∈ (run_ops s ops).2,
        s.chunks.length ≤ slot ∧ slot < (run_ops s ops).1.chunks.length) ∧
      (run_ops s ops).2.Pairwise (· < ·) := by
  induction ops with
  | nil => intro s; simp [run_ops]
  | cons op rest ih =>
    intro s
    have h1 := run_op_spec s op
    have h2 := ih (run_op s op).1
    have hrw : run_ops s (op :: rest) =
        ((run_ops (run_op s op).1 rest).1,
          (run_op s op).2 ++ (run_ops (run_op s op).1 rest).2) := rfl
    rw [hrw]
    refine ⟨le_trans h1.1 h2.1, ?_, ?_⟩
    · intro slot hslot
      rcases List.mem_append.mp hslot with hmem | hmem
      · have := h1.2.1 slot hmem
        exact ⟨this.1, lt_of_lt_of_le this.2 h2.1⟩
      · have := h2.2.1 slot hmem
        exact ⟨le_trans h1.1 this.1, this.2⟩
    · refine List.pairwise_append.mpr ⟨h1.2.2, h2.2.2, ?_⟩
      intro a ha b hb
      have hA := h1.2.1 a ha
      have hB := h2.2.1 b hb
      omega

/-- C9: over every sequence of `add_documents` and `remove_document`
operations, from any starting state, the assigned slot ids are strictly
increasing in assignment order and never reused; deletion preserves the
slot-table length and leaves every record's identity (`chunk_id`,
`document_id`, `chunk_index`, `text`) unchanged - entries are neither
removed nor renumbered. -/
theorem slot_monotonicity (s : EmbState) (ops : List EmbOp) :
    (run_ops s ops).2.Pairwise (· < ·) ∧
    (run_ops s ops).2.Nodup ∧
    (∀ d, (remove_document s d).chunks.length = s.chunks.length) ∧
    (∀ d i (hi : i < s.chunks.length),
      (((remove_document s d).chunks.get
          ⟨i, by rw [remove_document_length]; exact hi⟩).chunk_id =
        (s.chunks.get ⟨i, hi⟩).chunk_id) ∧
      (((remove_document s d).chunks.get
          ⟨i, by rw [remove_document_length]; exact hi⟩).document_id =
        (s.chunks.get ⟨i, hi⟩).document_id) ∧
      (((remove_document s d).chunks.get
          ⟨i, by rw [remove_document_length]; exact hi⟩).chunk_index =
        (s.chunks.get ⟨i, hi⟩).chunk_index) ∧
      (((remove_document s d).chunks.get
          ⟨i, by rw [remove_document_length]; exact hi⟩).text =
        (s.chunks.get ⟨i, hi⟩).text)) := by
  have hp := (run_ops_spec ops s).2.2
  refine ⟨hp, hp.imp (fun hab => Nat.ne_of_lt hab), remove_document_length s, ?_⟩
  · intro d i hi
    simp only [remove_document, List.get_eq_getElem, List.getElem_map]
    split <;> simp

/-- Witness for C9 on the one-document demo state. -/
theorem slot_monotonicity_witness :
    (0 < demo_state.chunks.length) ∧
    ((remove_document demo_state "doc1").chunks.get
        ⟨0, by rw [remove_document_length]; decide⟩).chunk_id =
      (demo_state.chunks.get ⟨0, by decide⟩).chunk_id := by
  have h := slot_monotonicity demo_state []
  exact ⟨by decide, (h.2.2.2 "doc1" 0 (by decide)).1⟩

/-- C8: whenever the index snapshot file or the metadata file is
missing or fails to deserialize, `_load_index` yields a fresh empty
index with empty chunk metadata; no error propagates out of
initialization (the embedded function is total). -/
theorem load_index_fallback (f : StoredFile FaissIndex)
    (m : StoredFile (List ChunkRecord))
    (h : f = .missing ∨ m = .missing ∨ f = .corrupt ∨ m = .corrupt) :
    load_index f m = (fresh_index, []) := by
  cases f <;> cases m <;> simp_all [load_index]

/-- Witness for C8: a corrupt index file next to good metadata. -/
theorem load_index_fallback_witness :
    ((StoredFile.corrupt : StoredFile FaissIndex) = .corrupt) ∧
    load_index .corrupt (.good [sampleRecord]) = (fresh_index, []) :=
  ⟨rfl, load_index_fallback _ _ (Or.inr (Or.inr (Or.inl rfl)))⟩

/-- Helper: the response-assembly tail always succeeds - the rule-based
generator populates every required key in both of its branches. -/
theorem respond_ok (qid : String) (t : ℚ) (query : String)
    (rc : List ScoredResult) :
    ∃ resp : QueryResponse, respond qid t query rc = .ok resp ∧
      resp.query = query ∧ resp.query_id = qid := by
  cases rc with
  | nil => exact ⟨_, rfl, rfl, rfl⟩
  | cons best rest => exact ⟨_, rfl, rfl, rfl⟩

/-- C2: with every LLM collaborator unavailable, `process_query` on any
non-empty query returns a well-formed response object (every required
key of the rule-based generator is present, so no `KeyError` is
raised), provided a document-scoped request supplies `max_results`;
and when retrieval yields no evidence the deterministic fallback
returns the insufficient-information answer with confidence `0.1`,
empty supporting evidence and an `Unclear` decision, rather than
raising. -/
theorem process_query_fallback_total
    (s : EmbState) (idxSearch : String → Nat → List (ℚ × Int))
    (mode : RerankMode) (scoreFn : String → String → ℚ)
    (qid : String) (t : ℚ) (query : String) (docId : Option String)
    (domain : Option String) (maxResults : Option Nat)
    (hq : query ≠ "") (hdoc : docId = none ∨ maxResults ≠ none) :
    (∃ resp : QueryResponse,
      process_query s idxSearch mode scoreFn qid t query docId domain maxResults =
        .ok resp ∧ resp.query = query ∧ resp.query_id = qid) ∧
    (search s idxSearch query maxResults = [] →
      process_query s idxSearch mode scoreFn qid t query none domain maxResults =
        .ok { query_id := qid, query := query,
              answer := "I couldn\x27t find relevant information to answer your question.",
              decision := some "Unclear",
              matched_clauses := [],
              rationale := { reasoning := "No relevant document excerpts found for the query.",
                             supporting_clauses := [],
                             conflicting_clauses := [],
                             confidence_score := 1/10,
                             key_factors := ["Insufficient information"] },
              processing_time_ms := t,
              token_usage := some 0 }) := by
  constructor
  · rcases hdoc with rfl | hne
    · exact respond_ok qid t query _
    · obtain ⟨k, rfl⟩ := Option.ne_none_iff_exists'.mp hne
      cases docId with
      | none => exact respond_ok qid t query _
      | some d => exact respond_ok qid t query _
  · intro h
    have e : process_query s idxSearch mode scoreFn qid t query none domain maxResults =
        respond qid t query (rerank_results mode scoreFn query
          (search s idxSearch query maxResults) maxResults) := rfl
    rw [e, h]
    rfl

/-- Witness for C2 on an empty index and a concrete query. -/
theorem process_query_fallback_witness :
    ("Does this cover x?" ≠ "") ∧
    process_query ⟨[]⟩ (fun _ _ => []) .cross_encoder (fun _ _ => 0) "qid" 0
        "Does this cover x?" none none (some 5) =
      .ok { query_id := "qid", query := "Does this cover x?",
            answer := "I couldn\x27t find relevant information to answer your question.",
            decision := some "Unclear",
            matched_clauses := [],
            rationale := { reasoning := "No relevant document excerpts found for the query.",
                           supporting_clauses := [],
                           conflicting_clauses := [],
                           confidence_score := 1/10,
                           key_factors := ["Insufficient information"] },
            processing_time_ms := 0,
            token_usage := some 0 } := by
  have h := process_query_fallback_total ⟨[]⟩ (fun _ _ => []) .cross_encoder
    (fun _ _ => 0) "qid" 0 "Does this cover x?" none none (some 5)
    (by decide) (Or.inl rfl)
  exact ⟨by decide, h.2 rfl⟩

/-- C6 counterexample to the claim as stated for arbitrary `top_k`:
with `top_k = 0` the result is not truncated to `0` elements - Python
`top_k or settings.TOP_K_RERANK` replaces `0` by the default `5`, so a
one-candidate input yields one result, not zero. -/
theorem rerank_topk_zero_counterexample :
    (rerank_results .cross_encoder (fun _ _ => (0 : ℚ)) "q" [sampleResult] (some 0)).length = 1 ∧
    ¬ ((rerank_results .cross_encoder (fun _ _ => (0 : ℚ)) "q" [sampleResult] (some 0)).length ≤ 0) := by
  have h : rerank_results .cross_encoder (fun _ _ => (0 : ℚ)) "q" [sampleResult] (some 0) =
      ((add_scores .cross_encoder (fun _ _ => (0 : ℚ)) "q" [sampleResult]).mergeSort combinedGe).take 5 := rfl
  rw [h]
  simp [add_scores]

end HackRx
